import Mathlib

/-!
Verification of the `networkcheck` internet-connection monitor (src/main.go).

Shallow embedding:
* Durations and timestamps are natural numbers of nanoseconds
  (Go `time.Duration` / `time.Time` values; all values arising in this
  program are non-negative, except the `-1` sentinel of `minLatency`,
  which we keep as an `Int`).
* An HTTP GET (`client.Get`) is modelled by its outcome: `none` when the
  request fails (network error or the client timeout fires), or
  `some (statusCode, latency)` when a response is received, where
  `latency` is the measured wall-clock round-trip time.
* The monitor loop's per-tick body (src/main.go lines 86-116) is the pure
  state transformer `tickStep`; the initialisation (lines 68-81) is
  `initState`; a whole run is a fold `runTicks` over the list of tick
  events `(probe outcome, time of the tick)`.
* The interrupt-handler summary (lines 118-128) is modelled by the list
  of printed lines `summaryLines`.
-/

/-- One probe outcome: `none` = request error/timeout, `some (code, lat)` =
response received with status `code` after measured round-trip `lat` ns. -/
abbrev ProbeOutcome := Option (Nat × Nat)

/-- `checkConnection` (src/main.go lines 134-143): returns `(false, 0)` when
`client.Get` errors, otherwise `(200 ≤ code < 300, measured latency)`. -/
def checkConnection (r : ProbeOutcome) : Bool × Nat :=
  match r with
  | none => (false, 0)
  | some (code, latency) => (decide (200 ≤ code ∧ code < 300), latency)

/-- The mutable state of `main` (src/main.go lines 56-66). -/
structure MonitorState where
  lastStatus : Bool
  statusChangeTime : Nat
  uptime : Nat
  downtime : Nat
  minLatency : Int
  maxLatency : Nat
  totalLatency : Nat
  latencyCount : Nat
deriving Repr, DecidableEq

/-- Initialisation (src/main.go lines 56-79): zeroed accumulators,
`minLatency = -1`, one immediate probe seeding `lastStatus`,
`statusChangeTime = t0` (the `time.Now()` of line 71), and the latency
aggregates seeded from the first probe when it is connected with
positive latency (lines 74-79). -/
def initState (probe : ProbeOutcome) (t0 : Nat) : MonitorState :=
  let res := checkConnection probe
  let base : MonitorState :=
    { lastStatus := res.1
      statusChangeTime := t0
      uptime := 0
      downtime := 0
      minLatency := -1
      maxLatency := 0
      totalLatency := 0
      latencyCount := 0 }
  if res.1 ∧ 0 < res.2 then
    { base with
      minLatency := (res.2 : Int)
      maxLatency := res.2
      totalLatency := res.2
      latencyCount := 1 }
  else base

/-- One iteration of the ticker branch of the main loop
(src/main.go lines 86-116): probe, compute `duration = now − statusChangeTime`,
add it to `uptime` or `downtime` according to the current tick's status,
update the latency aggregates when connected with positive latency, set
`statusChangeTime = now`, and assign `lastStatus` on a transition. -/
def tickStep (st : MonitorState) (probe : ProbeOutcome) (now : Nat) : MonitorState :=
  let res := checkConnection probe
  let currentStatus := res.1
  let latency := res.2
  let duration := now - st.statusChangeTime
  let st1 :=
    if currentStatus then
      let stUp := { st with uptime := st.uptime + duration }
      if 0 < latency then
        { stUp with
          minLatency :=
            if stUp.minLatency < 0 ∨ (latency : Int) < stUp.minLatency then (latency : Int)
            else stUp.minLatency
          maxLatency := if stUp.maxLatency < latency then latency else stUp.maxLatency
          totalLatency := stUp.totalLatency + latency
          latencyCount := stUp.latencyCount + 1 }
      else stUp
    else { st with downtime := st.downtime + duration }
  { st1 with
    statusChangeTime := now
    lastStatus := if currentStatus != st.lastStatus then currentStatus else st.lastStatus }

/-- A run of the main loop: fold `tickStep` over the tick events,
each event being `(probe outcome, time.Now() of that tick)`. -/
def runTicks (st : MonitorState) (events : List (ProbeOutcome × Nat)) : MonitorState :=
  events.foldl (fun s e => tickStep s e.1 e.2) st

/-- The time of the last tick of a run, or `t` when there is none. -/
def lastTime (t : Nat) (events : List (ProbeOutcome × Nat)) : Nat :=
  events.foldl (fun _ e => e.2) t

/-- `time.Now()` is monotone: each tick's time is at least the previous
timestamp. -/
def timesValid : Nat → List (ProbeOutcome × Nat) → Prop
  | _, [] => True
  | t, e :: es => t ≤ e.2 ∧ timesValid e.2 es

/-- The latency sample a tick records, if any: the measured latency when the
probe is connected with positive latency (src/main.go lines 92-105 guard
`currentStatus` and `latency > 0`; lines 74 likewise at initialisation). -/
def tickSample (probe : ProbeOutcome) : Option Nat :=
  let res := checkConnection probe
  if res.1 ∧ 0 < res.2 then some res.2 else none

/-- All latency samples recorded over a run (initial probe then the ticks). -/
def samplesOf (probe0 : ProbeOutcome) (events : List (ProbeOutcome × Nat)) : List Nat :=
  (tickSample probe0).toList ++ events.filterMap (fun e => tickSample e.1)

/-- `formatDuration` (src/main.go lines 177-191): round to the nearest second
(`d.Round(time.Second)`, half away from zero; inputs here are non-negative),
split into hours/minutes/seconds, and omit zero-valued leading units. -/
def formatDuration (ns : Nat) : String :=
  let d := ((ns + 500000000) / 1000000000) * 1000000000
  let h := d / 3600000000000
  let d := d - h * 3600000000000
  let m := d / 60000000000
  let d := d - m * 60000000000
  let s := d / 1000000000
  if 0 < h then
    toString h ++ "h " ++ toString m ++ "m " ++ toString s ++ "s"
  else if 0 < m then
    toString m ++ "m " ++ toString s ++ "s"
  else
    toString s ++ "s"

/-- One line of the interrupt summary (src/main.go lines 120-127),
abstracting the terminal rendering: each constructor carries the value the
corresponding `Printf` prints. -/
inductive SummaryLine where
  | exiting : SummaryLine
  | totalUptime (s : String) : SummaryLine
  | totalDowntime (s : String) : SummaryLine
  | minLat (d : Int) : SummaryLine
  | maxLat (d : Nat) : SummaryLine
  | avgLat (d : Nat) : SummaryLine
deriving Repr, DecidableEq

/-- The lines printed by the interrupt branch (src/main.go lines 118-128):
always the exit banner and the total uptime/downtime lines, then the latency
min/max/average lines when `latencyCount > 0`; the average is the integer
quotient `totalLatency / latencyCount` (Go `Duration` division). -/
def summaryLines (st : MonitorState) : List SummaryLine :=
  [SummaryLine.exiting,
   SummaryLine.totalUptime (formatDuration st.uptime),
   SummaryLine.totalDowntime (formatDuration st.downtime)] ++
  (if 0 < st.latencyCount then
     [SummaryLine.minLat st.minLatency,
      SummaryLine.maxLat st.maxLatency,
      SummaryLine.avgLat (st.totalLatency / st.latencyCount)]
   else [])

/-- The monitor state at the moment of interrupt, after the initial probe at
time `t0` and the given tick events. -/
def finalState (probe0 : ProbeOutcome) (t0 : Nat) (events : List (ProbeOutcome × Nat)) :
    MonitorState :=
  runTicks (initState probe0 t0) events

/-- The outcome of the most recent probe: the last tick's probe, or the
initial probe `p` when no tick happened yet. -/
def lastProbe (p : ProbeOutcome) (events : List (ProbeOutcome × Nat)) : ProbeOutcome :=
  events.foldl (fun _ e => e.1) p

/-- The number of whole seconds `formatDuration` works with after the
`d.Round(time.Second)` step (half rounds away from zero; inputs are
non-negative nanosecond counts). -/
def roundedSeconds (ns : Nat) : Nat :=
  (ns + 500000000) / 1000000000

/-- The latency aggregates of `st` represent exactly the recorded `samples`:
the count and total match, the minimum is non-negative once a sample exists,
and every sample lies between `minLatency` and `maxLatency`. -/
def AggInv (st : MonitorState) (samples : List Nat) : Prop :=
  (samples ≠ [] → 0 ≤ st.minLatency) ∧
  (∀ l ∈ samples, st.minLatency ≤ (l : Int) ∧ l ≤ st.maxLatency) ∧
  st.totalLatency = samples.sum ∧
  st.latencyCount = samples.length

theorem runTicks_nil (st : MonitorState) : runTicks st [] = st := rfl

theorem runTicks_cons (st : MonitorState) (e : ProbeOutcome × Nat)
    (es : List (ProbeOutcome × Nat)) :
    runTicks st (e :: es) = runTicks (tickStep st e.1 e.2) es := rfl

theorem lastTime_cons (t : Nat) (e : ProbeOutcome × Nat) (es : List (ProbeOutcome × Nat)) :
    lastTime t (e :: es) = lastTime e.2 es := rfl

theorem lastProbe_cons (p : ProbeOutcome) (e : ProbeOutcome × Nat)
    (es : List (ProbeOutcome × Nat)) :
    lastProbe p (e :: es) = lastProbe e.1 es := rfl

theorem tickStep_sct (st : MonitorState) (probe : ProbeOutcome) (now : Nat) :
    (tickStep st probe now).statusChangeTime = now := by
  unfold tickStep
  rcases checkConnection probe with ⟨s, l⟩
  cases s <;> simp

theorem tickStep_lastStatus (st : MonitorState) (probe : ProbeOutcome) (now : Nat) :
    (tickStep st probe now).lastStatus = (checkConnection probe).1 := by
  unfold tickStep
  rcases checkConnection probe with ⟨s, l⟩
  cases s <;> cases h : st.lastStatus <;> simp [h]

theorem tickStep_up_down (st : MonitorState) (probe : ProbeOutcome) (now : Nat) :
    (tickStep st probe now).uptime + (tickStep st probe now).downtime =
      st.uptime + st.downtime + (now - st.statusChangeTime) := by
  unfold tickStep
  rcases checkConnection probe with ⟨s, l⟩
  cases s
  · simp
    omega
  · rcases Nat.eq_zero_or_pos l with hl | hl
    · simp [hl]
      omega
    · simp [hl]
      omega

theorem tickStep_agg_none (st : MonitorState) (probe : ProbeOutcome) (now : Nat)
    (h : tickSample probe = none) :
    (tickStep st probe now).minLatency = st.minLatency ∧
    (tickStep st probe now).maxLatency = st.maxLatency ∧
    (tickStep st probe now).totalLatency = st.totalLatency ∧
    (tickStep st probe now).latencyCount = st.latencyCount := by
  unfold tickSample at h
  unfold tickStep
  rcases hc : checkConnection probe with ⟨s, l⟩
  rw [hc] at h
  cases s
  · simp
  · simp at h
    simp [h]

theorem tickStep_agg_some (st : MonitorState) (probe : ProbeOutcome) (now : Nat) (l : Nat)
    (h : tickSample probe = some l) :
    (tickStep st probe now).minLatency =
      (if st.minLatency < 0 ∨ (l : Int) < st.minLatency then (l : Int) else st.minLatency) ∧
    (tickStep st probe now).maxLatency = (if st.maxLatency < l then l else st.maxLatency) ∧
    (tickStep st probe now).totalLatency = st.totalLatency + l ∧
    (tickStep st probe now).latencyCount = st.latencyCount + 1 := by
  unfold tickSample at h
  unfold tickStep
  rcases hc : checkConnection probe with ⟨s, l'⟩
  rw [hc] at h
  cases s
  · simp at h
  · simp at h
    obtain ⟨hl, rfl⟩ := h
    simp [hl]

theorem initState_basic (probe : ProbeOutcome) (t0 : Nat) :
    (initState probe t0).statusChangeTime = t0 ∧
    (initState probe t0).uptime = 0 ∧
    (initState probe t0).downtime = 0 ∧
    (initState probe t0).lastStatus = (checkConnection probe).1 := by
  by_cases hc : (checkConnection probe).1 = true ∧ 0 < (checkConnection probe).2
  · simp [initState, hc]
  · simp [initState, hc]

theorem initState_agg_none (probe : ProbeOutcome) (t0 : Nat) (h : tickSample probe = none) :
    (initState probe t0).minLatency = -1 ∧
    (initState probe t0).maxLatency = 0 ∧
    (initState probe t0).totalLatency = 0 ∧
    (initState probe t0).latencyCount = 0 := by
  unfold tickSample at h
  by_cases hc : (checkConnection probe).1 = true ∧ 0 < (checkConnection probe).2
  · simp [hc] at h
  · simp [initState, hc]

theorem initState_agg_some (probe : ProbeOutcome) (t0 : Nat) (l : Nat)
    (h : tickSample probe = some l) :
    (initState probe t0).minLatency = (l : Int) ∧
    (initState probe t0).maxLatency = l ∧
    (initState probe t0).totalLatency = l ∧
    (initState probe t0).latencyCount = 1 := by
  unfold tickSample at h
  by_cases hc : (checkConnection probe).1 = true ∧ 0 < (checkConnection probe).2
  · simp [hc] at h
    have hl : 0 < l := h ▸ hc.2
    simp [initState, hc, h, hl]
  · simp [hc] at h

theorem aggInv_tickStep (st : MonitorState) (probe : ProbeOutcome) (now : Nat)
    (samples : List Nat) (h : AggInv st samples) :
    AggInv (tickStep st probe now) (samples ++ (tickSample probe).toList) := by
  obtain ⟨h1, h2, h3, h4⟩ := h
  cases hs : tickSample probe with
  | none =>
    obtain ⟨e1, e2, e3, e4⟩ := tickStep_agg_none st probe now hs
    exact ⟨by simpa [e1] using h1, by simpa [e2, e1] using h2,
           by simpa [e3] using h3, by simpa [e4] using h4⟩
  | some l =>
    obtain ⟨e1, e2, e3, e4⟩ := tickStep_agg_some st probe now l hs
    refine ⟨?_, ?_, ?_, ?_⟩
    · intro _
      rw [e1]
      split
      · exact Int.natCast_nonneg l
      · rename_i hcond
        omega
    · intro x hx
      rcases List.mem_append.1 hx with hx | hx
      · have hb := h2 x hx
        have hne : samples ≠ [] := List.ne_nil_of_mem hx
        have hmin := h1 hne
        constructor
        · rw [e1]
          split
          · rename_i hcond
            rcases hcond with hneg | hlt
            · omega
            · omega
          · exact hb.1
        · rw [e2]
          split
          · rename_i hcond
            omega
          · exact hb.2
      · simp at hx
        subst hx
        constructor
        · rw [e1]
          split
          · exact le_refl _
          · rename_i hcond
            push_neg at hcond
            exact hcond.2
        · rw [e2]
          split
          · exact le_refl _
          · rename_i hcond
            omega
    · rw [e3, h3]
      simp
    · rw [e4, h4]
      simp

theorem aggInv_init (probe : ProbeOutcome) (t0 : Nat) :
    AggInv (initState probe t0) (tickSample probe).toList := by
  unfold AggInv
  cases hs : tickSample probe with
  | none =>
    obtain ⟨e1, e2, e3, e4⟩ := initState_agg_none probe t0 hs
    simp [e1, e2, e3, e4]
  | some l =>
    obtain ⟨e1, e2, e3, e4⟩ := initState_agg_some probe t0 l hs
    refine ⟨fun _ => by rw [e1]; exact Int.natCast_nonneg l, ?_, by simp [e3], by simp [e4]⟩
    intro x hx
    simp at hx
    subst hx
    rw [e1, e2]
    exact ⟨le_refl _, le_refl _⟩

theorem aggInv_run (events : List (ProbeOutcome × Nat)) :
    ∀ (st : MonitorState) (samples : List Nat), AggInv st samples →
      AggInv (runTicks st events) (samples ++ events.filterMap fun e => tickSample e.1) := by
  induction events with
  | nil =>
    intro st samples h
    simpa [runTicks_nil] using h
  | cons e es ih =>
    intro st samples h
    have h' := aggInv_tickStep st e.1 e.2 samples h
    have h2 := ih (tickStep st e.1 e.2) (samples ++ (tickSample e.1).toList) h'
    rw [runTicks_cons]
    cases hs : tickSample e.1 with
    | none =>
      rw [hs] at h2
      simpa [List.filterMap_cons, hs] using h2
    | some l =>
      rw [hs] at h2
      simpa [List.filterMap_cons, hs, List.append_assoc] using h2

/-- The latency aggregates of the state at interrupt time represent exactly
the samples recorded over the run. -/
theorem aggInv_final (probe0 : ProbeOutcome) (t0 : Nat) (events : List (ProbeOutcome × Nat)) :
    AggInv (finalState probe0 t0 events) (samplesOf probe0 events) := by
  have := aggInv_run events (initState probe0 t0) (tickSample probe0).toList
    (aggInv_init probe0 t0)
  simpa [finalState, samplesOf] using this

theorem runTicks_sct (events : List (ProbeOutcome × Nat)) :
    ∀ st : MonitorState,
      (runTicks st events).statusChangeTime = lastTime st.statusChangeTime events := by
  induction events with
  | nil =>
    intro st
    rfl
  | cons e es ih =>
    intro st
    rw [runTicks_cons, lastTime_cons]
    rw [ih, tickStep_sct]

theorem run_updown (events : List (ProbeOutcome × Nat)) :
    ∀ st : MonitorState, timesValid st.statusChangeTime events →
      (runTicks st events).uptime + (runTicks st events).downtime + st.statusChangeTime =
        lastTime st.statusChangeTime events + st.uptime + st.downtime := by
  induction events with
  | nil =>
    intro st _
    unfold lastTime
    simp [runTicks_nil]
    omega
  | cons e es ih =>
    intro st h
    obtain ⟨hle, hrest⟩ := h
    have hsct : (tickStep st e.1 e.2).statusChangeTime = e.2 := tickStep_sct st e.1 e.2
    have hih := ih (tickStep st e.1 e.2) (by rw [hsct]; exact hrest)
    rw [hsct] at hih
    have hud := tickStep_up_down st e.1 e.2
    rw [runTicks_cons, lastTime_cons]
    omega

theorem run_lastStatus (events : List (ProbeOutcome × Nat)) :
    ∀ (st : MonitorState) (p : ProbeOutcome), st.lastStatus = (checkConnection p).1 →
      (runTicks st events).lastStatus = (checkConnection (lastProbe p events)).1 := by
  induction events with
  | nil =>
    intro st p h
    simpa [runTicks_nil, lastProbe] using h
  | cons e es ih =>
    intro st p h
    rw [runTicks_cons, lastProbe_cons]
    exact ih (tickStep st e.1 e.2) e.1 (tickStep_lastStatus st e.1 e.2)

theorem formatDuration_low (ns : Nat) (h : roundedSeconds ns < 60) :
    formatDuration ns = toString (roundedSeconds ns) ++ "s" := by
  unfold formatDuration roundedSeconds at *
  set sec := (ns + 500000000) / 1000000000 with hsec
  have h1 : sec * 1000000000 / 3600000000000 = 0 := by omega
  have h2 : sec * 1000000000 / 60000000000 = 0 := by omega
  have h3 : sec * 1000000000 / 1000000000 = sec := by omega
  simp [h1, h2, h3]

theorem formatDuration_mid (ns : Nat) (h60 : 60 ≤ roundedSeconds ns)
    (h36 : roundedSeconds ns < 3600) :
    formatDuration ns =
      toString (roundedSeconds ns / 60) ++ "m " ++ toString (roundedSeconds ns % 60) ++ "s" := by
  unfold formatDuration roundedSeconds at *
  set sec := (ns + 500000000) / 1000000000 with hsec
  have h1 : sec * 1000000000 / 3600000000000 = 0 := by omega
  have h2 : sec * 1000000000 / 60000000000 = sec / 60 := by omega
  have h3 : sec * 1000000000 - sec / 60 * 60000000000 = sec % 60 * 1000000000 := by omega
  have h4 : sec % 60 * 1000000000 / 1000000000 = sec % 60 := by omega
  have h5 : 0 < sec / 60 := by omega
  simp [h1, h2, h3, h4, h5]

theorem formatDuration_high (ns : Nat) (h36 : 3600 ≤ roundedSeconds ns) :
    formatDuration ns =
      toString (roundedSeconds ns / 3600) ++ "h " ++
      toString (roundedSeconds ns % 3600 / 60) ++ "m " ++
      toString (roundedSeconds ns % 60) ++ "s" := by
  unfold formatDuration roundedSeconds at *
  set sec := (ns + 500000000) / 1000000000 with hsec
  have h1 : sec * 1000000000 / 3600000000000 = sec / 3600 := by omega
  have h2 : sec * 1000000000 - sec / 3600 * 3600000000000 = sec % 3600 * 1000000000 := by omega
  have h3 : sec % 3600 * 1000000000 / 60000000000 = sec % 3600 / 60 := by omega
  have h4 : sec % 3600 * 1000000000 - sec % 3600 / 60 * 60000000000 = sec % 60 * 1000000000 := by
    omega
  have h5 : sec % 60 * 1000000000 / 1000000000 = sec % 60 := by omega
  have h6 : 0 < sec / 3600 := by omega
  simp [h1, h2, h3, h4, h5, h6]

/-- C7: `formatDuration` yields "0s" on 0 s, "1m 5s" on 65 s, "1h 1m 1s" on
3661 s (arguments in nanoseconds), and in general formats the rounded number
of seconds as hours/minutes/seconds with zero-valued leading units omitted. -/
theorem formatDuration_spec :
    formatDuration 0 = "0s" ∧
    formatDuration 65000000000 = "1m 5s" ∧
    formatDuration 3661000000000 = "1h 1m 1s" ∧
    (∀ ns, roundedSeconds ns < 60 →
      formatDuration ns = toString (roundedSeconds ns) ++ "s") ∧
    (∀ ns, 60 ≤ roundedSeconds ns → roundedSeconds ns < 3600 →
      formatDuration ns =
        toString (roundedSeconds ns / 60) ++ "m " ++ toString (roundedSeconds ns % 60) ++ "s") ∧
    (∀ ns, 3600 ≤ roundedSeconds ns →
      formatDuration ns =
        toString (roundedSeconds ns / 3600) ++ "h " ++
        toString (roundedSeconds ns % 3600 / 60) ++ "m " ++
        toString (roundedSeconds ns % 60) ++ "s") :=
  ⟨by decide, by decide, by decide, formatDuration_low, formatDuration_mid, formatDuration_high⟩

/-- C7 witness: the general clauses evaluated at 5 s, 65 s and 3661 s. -/
theorem formatDuration_spec_witness :
    (roundedSeconds 5000000000 < 60 ∧ formatDuration 5000000000 = toString (roundedSeconds 5000000000) ++ "s") ∧
    (60 ≤ roundedSeconds 65000000000 ∧ roundedSeconds 65000000000 < 3600 ∧
      formatDuration 65000000000 =
        toString (roundedSeconds 65000000000 / 60) ++ "m " ++ toString (roundedSeconds 65000000000 % 60) ++ "s") ∧
    (3600 ≤ roundedSeconds 3661000000000 ∧
      formatDuration 3661000000000 =
        toString (roundedSeconds 3661000000000 / 3600) ++ "h " ++
        toString (roundedSeconds 3661000000000 % 3600 / 60) ++ "m " ++
        toString (roundedSeconds 3661000000000 % 60) ++ "s") :=
  ⟨⟨by decide, formatDuration_spec.2.2.2.1 5000000000 (by decide)⟩,
   ⟨by decide, by decide, formatDuration_spec.2.2.2.2.1 65000000000 (by decide) (by decide)⟩,
   ⟨by decide, formatDuration_spec.2.2.2.2.2 3661000000000 (by decide)⟩⟩

/-- C1: on every tick, `elapsed = now − statusChangeTime` is added to uptime
when the current tick's probe is reachable and to downtime otherwise, and
`statusChangeTime` is set to `now` unconditionally (not only on a status
transition). -/
theorem tick_accounting (st : MonitorState) (probe : ProbeOutcome) (now : Nat) :
    (tickStep st probe now).statusChangeTime = now ∧
    (tickStep st probe now).uptime =
      st.uptime + (if (checkConnection probe).1 then now - st.statusChangeTime else 0) ∧
    (tickStep st probe now).downtime =
      st.downtime + (if (checkConnection probe).1 then 0 else now - st.statusChangeTime) := by
  unfold tickStep
  rcases h : checkConnection probe with ⟨status, latency⟩
  cases status <;> simp <;> split <;> simp

/-- C2: a probe is reachable iff a response is received (the HTTP client
errors on timeout, so `none` covers both network errors and timeouts) with
status code in [200,300); 200 is reachable, 404 and a connection error are
unreachable. -/
theorem checkConnection_reachable :
    (∀ c l, (checkConnection (some (c, l))).1 = decide (200 ≤ c ∧ c < 300)) ∧
    (∀ l, (checkConnection (some (200, l))).1 = true) ∧
    (∀ l, (checkConnection (some (404, l))).1 = false) ∧
    (checkConnection none).1 = false := by
  refine ⟨fun c l => rfl, fun l => by simp [checkConnection], fun l => by simp [checkConnection], rfl⟩

/-- C4 counterexample: a 404 response with a measured round-trip of 7 ns is
classified unreachable, yet `checkConnection` returns the measured latency 7,
not zero — refuting "latency is zero whenever the probe is unreachable,
including a response with status outside [200,300)". -/
theorem latency_nonzero_on_404 :
    (checkConnection (some (404, 7))).1 = false ∧
    (checkConnection (some (404, 7))).2 ≠ 0 := by
  constructor
  · simp [checkConnection]
  · simp [checkConnection]

/-- C4 (amended): the latency returned is the measured round-trip time
whenever a response is received — including a response with status code
outside [200,300), when the probe is classified unreachable — and is zero
only when the request errors (network error or timeout). -/
theorem checkConnection_latency :
    (checkConnection none).2 = 0 ∧
    (∀ c l, (checkConnection (some (c, l))).2 = l) ∧
    (∀ c l, (checkConnection (some (c, l))).1 = true → (checkConnection (some (c, l))).2 = l) := by
  exact ⟨rfl, fun c l => rfl, fun c l _ => rfl⟩

/-- C4 amended-claim witness. -/
theorem checkConnection_latency_witness :
    (checkConnection (some (204, 9))).1 = true ∧ (checkConnection (some (204, 9))).2 = 9 := by
  refine ⟨by decide, checkConnection_latency.2.2 204 9 (by decide)⟩

/-- C8: no tick decreases either accumulator: uptime and downtime are
monotone non-decreasing across every iteration of the loop. -/
theorem tick_monotone (st : MonitorState) (probe : ProbeOutcome) (now : Nat) :
    st.uptime ≤ (tickStep st probe now).uptime ∧
    st.downtime ≤ (tickStep st probe now).downtime := by
  unfold tickStep
  rcases h : checkConnection probe with ⟨status, latency⟩
  cases status <;> simp <;> split <;> simp

/-- C3: for every sequence of probe outcomes at the ticks (with monotone
clock readings), accumulated uptime plus downtime equals the wall-clock time
elapsed between the seeding of `statusChangeTime` and the last tick. -/
theorem uptime_downtime_total (probe0 : ProbeOutcome) (t0 : Nat)
    (events : List (ProbeOutcome × Nat)) (h : timesValid t0 events) :
    (finalState probe0 t0 events).uptime + (finalState probe0 t0 events).downtime + t0 =
      lastTime t0 events := by
  obtain ⟨hsct, hup, hdown, _⟩ := initState_basic probe0 t0
  have hr := run_updown events (initState probe0 t0) (by rw [hsct]; exact h)
  rw [hsct, hup, hdown] at hr
  unfold finalState
  omega

/-- C3 witness: a connected tick at time 12 and a failed tick at time 15
starting from time 10 give uptime 2 and downtime 3, totalling 15 − 10. -/
theorem uptime_downtime_total_witness :
    timesValid 10 [(some (200, 4), 12), (none, 15)] ∧
    (finalState (some (200, 5)) 10 [(some (200, 4), 12), (none, 15)]).uptime +
        (finalState (some (200, 5)) 10 [(some (200, 4), 12), (none, 15)]).downtime + 10 =
      lastTime 10 [(some (200, 4), 12), (none, 15)] := by
  have htv : timesValid 10 [(some ((200 : Nat), (4 : Nat)), (12 : Nat)), (none, 15)] := by
    simp [timesValid]
  exact ⟨htv, uptime_downtime_total (some (200, 5)) 10 _ htv⟩

/-- C10: at every tick boundary (including right after the initial probe),
`lastStatus` equals the reachable flag of the most recent probe, even though
it is assigned only on a transition. -/
theorem lastStatus_latest (probe0 : ProbeOutcome) (t0 : Nat)
    (events : List (ProbeOutcome × Nat)) :
    (finalState probe0 t0 events).lastStatus = (checkConnection (lastProbe probe0 events)).1 :=
  run_lastStatus events (initState probe0 t0) probe0 (initState_basic probe0 t0).2.2.2

/-- C5: the latency aggregates change only on a tick whose probe is
reachable with strictly positive latency; `minLatency` is seeded from the
first such sample (the `-1` sentinel, or directly at initialisation), never
from zero. -/
theorem latency_update_guard (st : MonitorState) (probe : ProbeOutcome) (now : Nat)
    (l : Nat) (t0 : Nat) :
    (tickSample probe = none →
      (tickStep st probe now).minLatency = st.minLatency ∧
      (tickStep st probe now).maxLatency = st.maxLatency ∧
      (tickStep st probe now).totalLatency = st.totalLatency ∧
      (tickStep st probe now).latencyCount = st.latencyCount) ∧
    (tickSample probe = some l →
      (tickStep st probe now).totalLatency = st.totalLatency + l ∧
      (tickStep st probe now).latencyCount = st.latencyCount + 1 ∧
      (st.minLatency = -1 → (tickStep st probe now).minLatency = (l : Int))) ∧
    (tickSample probe = none →
      (initState probe t0).minLatency = -1 ∧ (initState probe t0).latencyCount = 0) ∧
    (tickSample probe = some l →
      (initState probe t0).minLatency = (l : Int) ∧ (initState probe t0).maxLatency = l ∧
      (initState probe t0).totalLatency = l ∧ (initState probe t0).latencyCount = 1) := by
  refine ⟨fun h => tickStep_agg_none st probe now h, fun h => ?_, fun h => ?_,
    fun h => initState_agg_some probe t0 l h⟩
  · obtain ⟨e1, e2, e3, e4⟩ := tickStep_agg_some st probe now l h
    refine ⟨e3, e4, fun hm => ?_⟩
    rw [e1, hm]
    simp
  · obtain ⟨e1, _, _, e4⟩ := initState_agg_none probe t0 h
    exact ⟨e1, e4⟩

/-- C5 witness: a 404 tick leaves the count unchanged; a 200 tick with
latency 4 from the `-1` sentinel sets `minLatency` to 4. -/
theorem latency_update_guard_witness :
    (tickSample (some (404, 4)) = none ∧
      (tickStep (initState none 0) (some (404, 4)) 7).latencyCount =
        (initState none 0).latencyCount) ∧
    (tickSample (some (200, 4)) = some 4 ∧ (initState none 0).minLatency = -1 ∧
      (tickStep (initState none 0) (some (200, 4)) 7).minLatency = (4 : Int)) := by
  have h1 : tickSample (some ((404 : Nat), (4 : Nat))) = none := by decide
  have h2 : tickSample (some ((200 : Nat), (4 : Nat))) = some 4 := by decide
  have hm : (initState none 0).minLatency = -1 := by decide
  exact ⟨⟨h1, ((latency_update_guard (initState none 0) (some (404, 4)) 7 4 0).1 h1).2.2.2⟩,
         ⟨h2, hm, ((latency_update_guard (initState none 0) (some (200, 4)) 7 4 0).2.1 h2).2.2 hm⟩⟩

/-- C6: after any run, `minLatency` is at most every recorded sample, every
recorded sample is at most `maxLatency`, the total and count match the
recorded samples, and the average the summary reports is the (integer)
quotient `totalLatency / latencyCount`. -/
theorem latency_aggregate_bounds (probe0 : ProbeOutcome) (t0 : Nat)
    (events : List (ProbeOutcome × Nat)) :
    (∀ l ∈ samplesOf probe0 events,
      (finalState probe0 t0 events).minLatency ≤ (l : Int) ∧
        l ≤ (finalState probe0 t0 events).maxLatency) ∧
    (finalState probe0 t0 events).totalLatency = (samplesOf probe0 events).sum ∧
    (finalState probe0 t0 events).latencyCount = (samplesOf probe0 events).length ∧
    (0 < (finalState probe0 t0 events).latencyCount →
      SummaryLine.avgLat
          ((finalState probe0 t0 events).totalLatency /
            (finalState probe0 t0 events).latencyCount) ∈
        summaryLines (finalState probe0 t0 events)) := by
  obtain ⟨hne, hbounds, htot, hcnt⟩ := aggInv_final probe0 t0 events
  refine ⟨hbounds, htot, hcnt, fun hc => ?_⟩
  simp [summaryLines, hc]

/-- C6 witness: with samples 5 (initial probe) and 3 (one tick), the final
minimum 3 and maximum 5 bound the sample 5, and the average line is
printed with the integer quotient. -/
theorem latency_aggregate_bounds_witness :
    ((5 : Nat) ∈ samplesOf (some (200, 5)) [(some (200, 3), 10)] ∧
      (finalState (some (200, 5)) 0 [(some (200, 3), 10)]).minLatency ≤ ((5 : Nat) : Int) ∧
      (5 : Nat) ≤ (finalState (some (200, 5)) 0 [(some (200, 3), 10)]).maxLatency) ∧
    (0 < (finalState (some (200, 5)) 0 [(some (200, 3), 10)]).latencyCount ∧
      SummaryLine.avgLat
          ((finalState (some (200, 5)) 0 [(some (200, 3), 10)]).totalLatency /
            (finalState (some (200, 5)) 0 [(some (200, 3), 10)]).latencyCount) ∈
        summaryLines (finalState (some (200, 5)) 0 [(some (200, 3), 10)])) := by
  have hm : (5 : Nat) ∈ samplesOf (some ((200 : Nat), (5 : Nat))) [(some (200, 3), 10)] := by
    decide
  have hc : 0 < (finalState (some ((200 : Nat), (5 : Nat))) 0 [(some (200, 3), 10)]).latencyCount := by
    decide
  exact ⟨⟨hm, (latency_aggregate_bounds (some (200, 5)) 0 [(some (200, 3), 10)]).1 5 hm⟩,
         ⟨hc, (latency_aggregate_bounds (some (200, 5)) 0 [(some (200, 3), 10)]).2.2.2 hc⟩⟩

/-- C9: the interrupt summary always contains the total-uptime and
total-downtime lines, and contains the latency min/max/average lines exactly
when at least one latency sample was recorded over the run. -/
theorem interrupt_summary (probe0 : ProbeOutcome) (t0 : Nat)
    (events : List (ProbeOutcome × Nat)) :
    SummaryLine.totalUptime (formatDuration (finalState probe0 t0 events).uptime) ∈
        summaryLines (finalState probe0 t0 events) ∧
    SummaryLine.totalDowntime (formatDuration (finalState probe0 t0 events).downtime) ∈
        summaryLines (finalState probe0 t0 events) ∧
    ((∃ x, SummaryLine.minLat x ∈ summaryLines (finalState probe0 t0 events)) ↔
      0 < (samplesOf probe0 events).length) ∧
    ((∃ x, SummaryLine.maxLat x ∈ summaryLines (finalState probe0 t0 events)) ↔
      0 < (samplesOf probe0 events).length) ∧
    ((∃ x, SummaryLine.avgLat x ∈ summaryLines (finalState probe0 t0 events)) ↔
      0 < (samplesOf probe0 events).length) := by
  obtain ⟨_, _, _, hcnt⟩ := aggInv_final probe0 t0 events
  rw [← hcnt]
  rcases Nat.eq_zero_or_pos (finalState probe0 t0 events).latencyCount with hc | hc
  · simp [summaryLines, hc]
  · simp [summaryLines, hc]
